import Mathlib

/-!
Verification of the HX711 load-cell acquisition and calibration engine
(`lib/hx711_device.py`, `lib/app_ui.py`, `lib/qt_app.py`) against its
natural-language specification.  Python floats are modelled as rationals,
Python ints as `Int`/`Nat`, fallible flows as outcome-valued functions.
-/

/-- Calibration-relevant mutable fields of the `HX711` helper object
(`self.OFFSET`, `self.SCALE`, `self.TARE_OFFSET` in `hx711_device.py`). -/
structure HXCal where
  OFFSET : ℚ
  SCALE : ℚ
  TARE_OFFSET : ℚ
deriving Repr, DecidableEq

/-- `HX711.set_gain`: the update of `self.GAIN`.  Requests 128/64/32 store the
pulse counts 3/2/1; any other request leaves the current `GAIN` unchanged
(the `if/elif` chain has no `else` branch and the comparisons cannot raise). -/
def set_gain_GAIN (GAIN : Nat) (gain : ℤ) : Nat :=
  if gain = 128 then 3 else if gain = 64 then 2 else if gain = 32 then 1 else GAIN

/-- `HX711.__init__` sets `self.GAIN = 0` and then calls `set_gain(gain)`. -/
def init_GAIN (gain : ℤ) : Nat := set_gain_GAIN 0 gain

/-- The number of iterations of the trailing `for _ in range(self.GAIN)`
clock-pulse loop at the end of `HX711.read`. -/
def readGainSelectPulses (GAIN : Nat) : Nat := GAIN

/-- The 24-bit MSB-first shift loop of `HX711.read`: for each sampled bit,
`count <<= 1` then `count += 1` when the data line is high. -/
def readShiftLoop (bits : List Bool) : Nat :=
  bits.foldl (fun count b => 2 * count + (if b then 1 else 0)) 0

/-- The value returned by `HX711.read`: the assembled 24-bit word after
`count ^= 0x800000`. -/
def readCount (bits : List Bool) : Nat := (readShiftLoop bits) ^^^ 0x800000

/-- The signed integer denoted by a raw 24-bit word under two's-complement
interpretation (what the spec calls the correctly signed sample value). -/
def twosComplement24 (n : Nat) : ℤ :=
  if n < 0x800000 then (n : ℤ) else (n : ℤ) - 0x1000000

/-- `HX711.read_average`: sums the results of the individual `read()` calls
into `total` and returns `total / times` (true division). -/
def read_average (reads : List ℤ) : ℚ :=
  ((reads.foldl (fun total r => total + r) 0 : ℤ) : ℚ) / (reads.length : ℚ)

/-- `HX711.get_grams` applied to the raw average it just computed:
`(abs(avg - OFFSET) - abs(TARE_OFFSET)) / SCALE` — the division is by the raw
`SCALE`, with no epsilon guard. -/
def get_grams (hx : HXCal) (raw_average : ℚ) : ℚ :=
  (|raw_average - hx.OFFSET| - |hx.TARE_OFFSET|) / hx.SCALE

/-- `HX711.tare`: calls `self.set_offset(self.read_average(times))`, i.e. it
overwrites the calibration `OFFSET` with the fresh average. -/
def tare (hx : HXCal) (avg : ℚ) : HXCal := { hx with OFFSET := avg }

/-- The grams computation of one tick of `HX711ReaderThread._run`:
`(abs(raw - offset) - abs(tare)) / max(scale, 1e-9)`. -/
def tickGrams (hx : HXCal) (raw : ℚ) : ℚ :=
  (|raw - hx.OFFSET| - |hx.TARE_OFFSET|) / max hx.SCALE (1 / 1000000000)

/-- `deque(maxlen=3).append`: append on the right, dropping from the left
whenever the buffer would exceed three elements. -/
def dequeAppend3 (buf : List ℚ) (g : ℚ) : List ℚ :=
  let b := buf ++ [g]
  b.drop (b.length - 3)

/-- The smoothed value emitted by `_run`: `sorted(buffer)[len(buffer) // 2]`. -/
def smoothedOf (buf : List ℚ) : ℚ :=
  (buf.insertionSort (fun x y => x ≤ y)).getD (buf.length / 2) 0

/-- The median of three values (the middle one in sorted order). -/
def medianOfThree (a b c : ℚ) : ℚ := max (min a b) (min (max a b) c)

/-- Python `int()` truncation toward zero, applied to a rational. -/
def pyInt (q : ℚ) : ℤ := if 0 ≤ q then ⌊q⌋ else ⌈q⌉

/-- Outcome of one sampling tick: either the raw average read from the
hardware, or an exception raised somewhere inside the `try` block. -/
inductive TickOutcome
  | ok (raw : ℚ)
  | err (e : Nat)
deriving Repr, DecidableEq

/-- Observable actions of the sampling loop: a `callback(Reading(...))`
invocation, an `error_callback(exc)` invocation, or a `time.sleep(interval)`. -/
inductive Event
  | reading (raw : ℤ) (grams : ℚ)
  | errorCb (e : Nat)
  | sleep
deriving Repr, DecidableEq

/-- One iteration of the `while` loop in `HX711ReaderThread._run`: on success,
compute grams, push into the smoothing buffer, emit the median-smoothed
reading and sleep; on an exception, invoke the error callback, sleep one
interval and continue.  Returns the new buffer and the emitted events. -/
def runTick (hx : HXCal) (buf : List ℚ) : TickOutcome → List ℚ × List Event
  | TickOutcome.ok raw =>
      let grams := tickGrams hx raw
      let buf2 := dequeAppend3 buf grams
      (buf2, [Event.reading (pyInt raw) (smoothedOf buf2), Event.sleep])
  | TickOutcome.err e => (buf, [Event.errorCb e, Event.sleep])

/-- `HX711ReaderThread._run` over a finite schedule of tick outcomes (the
ticks that happen before `stop()` is requested). -/
def runLoop (hx : HXCal) (buf : List ℚ) : List TickOutcome → List Event
  | [] => []
  | t :: rest =>
      let r := runTick hx buf t
      r.2 ++ runLoop hx r.1 rest

/-- The smoothing buffer contents after processing a schedule of ticks. -/
def bufAfter (hx : HXCal) (buf : List ℚ) : List TickOutcome → List ℚ
  | [] => buf
  | t :: rest => bufAfter hx (runTick hx buf t).1 rest

/-- The tare computation inside `do_tare` of `HX711App._tare_async`
(`app_ui.py`): stores the signed difference `read_average - offset` as the
tare offset, leaving `OFFSET` and `SCALE` untouched. -/
def tk_do_tare (hx : HXCal) (tare_raw : ℚ) : HXCal :=
  { hx with TARE_OFFSET := tare_raw - hx.OFFSET }

/-- The Qt tare slot `HX711Controller.tare` (`qt_app.py`): stores
`abs(read_average - offset)` as the tare offset, leaving `OFFSET` and
`SCALE` untouched. -/
def qt_tare (hx : HXCal) (tare_raw : ℚ) : HXCal :=
  { hx with TARE_OFFSET := |tare_raw - hx.OFFSET| }

/-- Keyword parameters declared by `HX711ReaderThread.__init__`. -/
def HX711ReaderThread_params : List String :=
  ["hx", "samples", "interval", "callback", "error_callback"]

/-- Keyword arguments passed by `HX711Controller._start_reader` when it
constructs `HX711ReaderThread` in non-demo mode. -/
def qt_start_reader_kwargs : List String :=
  ["hx", "samples", "interval", "callback", "error_callback", "rolling_window"]

/-- Python keyword-argument binding succeeds only when every passed keyword
names a declared parameter; otherwise the call raises `TypeError`. -/
def kwargsBind (params kwargs : List String) : Bool :=
  kwargs.all (fun k => params.contains k)

/-- Result of `HX711Controller._start_reader` for a parsed configuration. -/
inductive StartReaderResult
  | demoStarted
  | initFailed
  | typeErrorRaised
  | readerStarted
deriving Repr, DecidableEq

/-- Control flow of `HX711Controller._start_reader`: demo mode starts the
simulated timer; otherwise the `HX711` handle is constructed (failure is
caught and reported), and then `HX711ReaderThread` is constructed with
`qt_start_reader_kwargs` — which raises `TypeError` unless every keyword
binds to a declared parameter. -/
def qt_start_reader (demo : Bool) (initOk : Bool) : StartReaderResult :=
  if demo then StartReaderResult.demoStarted
  else if !initOk then StartReaderResult.initFailed
  else if kwargsBind HX711ReaderThread_params qt_start_reader_kwargs then
    StartReaderResult.readerStarted
  else StartReaderResult.typeErrorRaised

/-- Three-level calibration verdict of the status evaluators. -/
inductive CalVerdict
  | good
  | warn
  | bad
deriving Repr, DecidableEq

/-- `HX711App._eval_calibration_status` (`app_ui.py`): `bad` when any of
`calibration_time`, `scale`, `offset` is `None`; otherwise
`age_days = (now - cal_time) / 86400 if cal_time else None`, a warn reason is
collected when `age_days and age_days > 7` (Python truthiness: `None` and
`0.0` are falsy), and the verdict is `warn` exactly when a reason was
collected. -/
def tk_eval_calibration_status (now : ℚ) (cal_time scale offset : Option ℚ) :
    CalVerdict :=
  match cal_time, scale, offset with
  | some ct, some _, some _ =>
      let age_days : Option ℚ := if ct = 0 then none else some ((now - ct) / 86400)
      let warn_reasons : List String :=
        match age_days with
        | some a => if a ≠ 0 ∧ 7 < a then ["cal_warn_age"] else []
        | none => []
      if warn_reasons ≠ [] then CalVerdict.warn else CalVerdict.good
  | _, _, _ => CalVerdict.bad

/-- `HX711Controller._eval_cal_status` (`qt_app.py`): same shape as the Tk
evaluator, with the single staleness check applied directly. -/
def qt_eval_cal_status (now : ℚ) (cal_time scale offset : Option ℚ) :
    CalVerdict :=
  match cal_time, scale, offset with
  | some ct, some _, some _ =>
      let age_days : Option ℚ := if ct = 0 then none else some ((now - ct) / 86400)
      match age_days with
      | some a => if a ≠ 0 ∧ 7 < a then CalVerdict.warn else CalVerdict.good
      | none => CalVerdict.good
  | _, _, _ => CalVerdict.bad

/-- The persisted calibration fields written by a successful calibration
(`_save_config` in `app_ui.py`, `self._config.update` in `qt_app.py`). -/
structure PersistedCal where
  scale : ℚ
  offset : ℚ
  known_weight : ℚ
  calibration_time : Option ℚ
  calibration_weight : Option ℚ
  calibration_temp : Option ℚ
  last_zero_raw : Option ℚ
deriving Repr, DecidableEq

/-- Hardware side effects a calibration flow can perform. -/
inductive HwEffect
  | createHandle
  | readAvg
deriving Repr, DecidableEq

/-- Outcome of one calibration attempt. -/
inductive CalOutcome
  | invalidWeight
  | initFailed
  | invalidScale
  | cancelled
  | done
deriving Repr, DecidableEq

/-- External inputs consumed by a calibration flow: whether a session handle
already exists, whether constructing a fresh one succeeds, the raw averages
returned by the successive `read_average` calls, the operator's answer to the
confirmation prompt, the wall-clock time, and the optional CPU temperature. -/
structure CalEnv where
  hxPresent : Bool
  initOk : Bool
  zero_avg : ℚ
  measured1_avg : ℚ
  proceed : Bool
  measured2_avg : ℚ
  now : ℚ
  cpu_temp : Option ℚ
deriving Repr, DecidableEq

/-- `HX711App._calibrate_flow` (`app_ui.py`) after input parsing: reject
`known_weight <= 0` before touching hardware; otherwise stop any reader,
acquire or reuse the handle, zero (`read_average` becomes the new offset,
tare cleared), measure the placed weight twice around a confirmation prompt
(each measurement validated `> 0`), compute `scale = measured / known_weight`
(validated `> 0`), and persist the calibration record.  Returns the persisted
configuration, the hardware effects performed, and the outcome; every
non-`done` exit leaves the persisted configuration unchanged. -/
def tk_calibrate_flow (known_weight : ℚ) (cfg : PersistedCal) (env : CalEnv) :
    PersistedCal × List HwEffect × CalOutcome :=
  if known_weight ≤ 0 then (cfg, [], CalOutcome.invalidWeight)
  else
    let createEffects : List HwEffect :=
      if env.hxPresent then [] else [HwEffect.createHandle]
    if !env.hxPresent && !env.initOk then (cfg, createEffects, CalOutcome.initFailed)
    else
      let offset := env.zero_avg
      let measured1 := |env.measured1_avg - offset|
      let effects1 := createEffects ++ [HwEffect.readAvg, HwEffect.readAvg]
      if measured1 ≤ 0 then (cfg, effects1, CalOutcome.invalidScale)
      else if !env.proceed then (cfg, effects1, CalOutcome.cancelled)
      else
        let measured2 := |env.measured2_avg - offset|
        let effects2 := effects1 ++ [HwEffect.readAvg]
        if measured2 ≤ 0 then (cfg, effects2, CalOutcome.invalidScale)
        else
          let scale := measured2 / known_weight
          if scale ≤ 0 then (cfg, effects2, CalOutcome.invalidScale)
          else
            ({ scale := scale, offset := offset, known_weight := known_weight,
               calibration_time := some env.now,
               calibration_weight := some known_weight,
               calibration_temp := env.cpu_temp,
               last_zero_raw := some offset },
             effects2, CalOutcome.done)

/-- `HX711Controller._calibrate_internal` (`qt_app.py`): the known weight is
the explicit override when given, else the configured `known_weight`; values
`<= 0` raise a `ValueError` that is caught and reported before any hardware
access.  In demo mode calibration is simulated without hardware.  Otherwise
the handle is acquired or reused, the reader zeroed, one measurement taken
and validated, and the record persisted (the Qt flow does not store a CPU
temperature). -/
def qt_calibrate_internal (weight_override : Option ℚ) (cfg_known_weight : ℚ)
    (cfg : PersistedCal) (demo : Bool) (env : CalEnv) :
    PersistedCal × List HwEffect × CalOutcome :=
  let known_weight :=
    match weight_override with
    | some w => w
    | none => cfg_known_weight
  if known_weight ≤ 0 then (cfg, [], CalOutcome.invalidWeight)
  else if demo then
    ({ cfg with
        scale := max 1 (known_weight / max known_weight (1 / 1000)),
        offset := 0,
        last_zero_raw := some 0,
        calibration_time := some env.now },
     [], CalOutcome.done)
  else
    let createEffects : List HwEffect :=
      if env.hxPresent then [] else [HwEffect.createHandle]
    if !env.hxPresent && !env.initOk then (cfg, createEffects, CalOutcome.initFailed)
    else
      let offset := env.zero_avg
      let measured := |env.measured1_avg - offset|
      let effects1 := createEffects ++ [HwEffect.readAvg, HwEffect.readAvg]
      if measured ≤ 0 then (cfg, effects1, CalOutcome.invalidScale)
      else
        let scale := measured / known_weight
        if scale ≤ 0 then (cfg, effects1, CalOutcome.invalidScale)
        else
          ({ cfg with
              scale := scale, offset := offset, known_weight := known_weight,
              calibration_time := some env.now,
              calibration_weight := some known_weight,
              last_zero_raw := some offset },
           effects1, CalOutcome.done)

/-! ### Helper lemmas -/

theorem list_foldl_add_eq (l : List ℤ) : ∀ init : ℤ,
    l.foldl (fun total r => total + r) init = init + l.sum := by
  induction l with
  | nil => intro init; simp
  | cons x xs ih =>
    intro init
    rw [List.foldl_cons, ih, List.sum_cons]
    ring

/-! ### Claims -/

/-- Claim C9: `read_average` over `n` identical raw samples `v` returns
exactly `v` for every `n ≥ 1`, and in general it returns the arithmetic mean
of the individual `read()` results. -/
theorem c9_read_average_mean :
    (∀ (n : ℕ) (v : ℤ), 1 ≤ n → read_average (List.replicate n v) = (v : ℚ))
    ∧ ∀ reads : List ℤ, reads ≠ [] →
        read_average reads = ((reads.sum : ℤ) : ℚ) / (reads.length : ℚ) := by
  have hmean : ∀ reads : List ℤ,
      read_average reads = ((reads.sum : ℤ) : ℚ) / (reads.length : ℚ) := by
    intro reads
    unfold read_average
    rw [list_foldl_add_eq]
    simp
  constructor
  · intro n v hn
    rw [hmean]
    have hn0 : (n : ℚ) ≠ 0 := by
      exact_mod_cast Nat.one_le_iff_ne_zero.mp hn
    rw [List.sum_replicate, List.length_replicate]
    push_cast [nsmul_eq_mul]
    field_simp
  · intro reads _
    exact hmean reads

/-- Claim C9 witness: concrete instances discharging the hypotheses. -/
theorem c9_witness :
    (1 ≤ 3 ∧ read_average (List.replicate 3 (7 : ℤ)) = ((7 : ℤ) : ℚ))
    ∧ (([1, 2, 3] : List ℤ) ≠ []
        ∧ read_average [1, 2, 3]
            = ((([1, 2, 3] : List ℤ).sum : ℤ) : ℚ) / ((([1, 2, 3] : List ℤ).length : ℕ) : ℚ)) :=
  ⟨⟨by norm_num, c9_read_average_mean.1 3 7 (by norm_num)⟩,
   ⟨by decide, c9_read_average_mean.2 [1, 2, 3] (by decide)⟩⟩

/-- Claim C3 counterexample: on a freshly constructed device, requesting the
unrecognized gain 100 leaves `GAIN` at its initial value 0, so the trailing
gain-selection pulse count is 0, not 3 as the claim states. -/
theorem c3_counterexample_unrecognized_gain :
    readGainSelectPulses (init_GAIN 100) ≠ 3 := by decide

/-- Claim C3 (amended): requesting 128/64/32 yields gain-selection pulse
counts 3/2/1; any other request leaves the previous pulse count unchanged —
in particular a freshly constructed device with an unrecognized gain issues
0 gain-selection pulses, not 3. -/
theorem c3_gain_mapping :
    ∀ (c : ℕ) (g : ℤ),
      readGainSelectPulses (set_gain_GAIN c 128) = 3
      ∧ readGainSelectPulses (set_gain_GAIN c 64) = 2
      ∧ readGainSelectPulses (set_gain_GAIN c 32) = 1
      ∧ (g ≠ 128 → g ≠ 64 → g ≠ 32 →
          readGainSelectPulses (set_gain_GAIN c g) = c
          ∧ readGainSelectPulses (init_GAIN g) = 0) := by
  intro c g
  refine ⟨rfl, rfl, rfl, ?_⟩
  intro h1 h2 h3
  constructor <;> simp [readGainSelectPulses, set_gain_GAIN, init_GAIN, h1, h2, h3]

/-- Claim C3 witness: concrete instance discharging the hypotheses. -/
theorem c3_witness :
    (100 : ℤ) ≠ 128 ∧ (100 : ℤ) ≠ 64 ∧ (100 : ℤ) ≠ 32
    ∧ readGainSelectPulses (set_gain_GAIN 5 100) = 5
    ∧ readGainSelectPulses (init_GAIN 100) = 0 := by
  have h := (c3_gain_mapping 5 100).2.2.2 (by decide) (by decide) (by decide)
  exact ⟨by decide, by decide, by decide, h.1, h.2⟩

/-- Claim C4: `_start_reader` passes a `rolling_window` keyword that
`HX711ReaderThread.__init__` does not declare, so keyword binding fails
(`TypeError`) and in non-demo mode a hardware-backed reader is never
started — the flow ends in init failure or in the raised `TypeError`. -/
theorem c4_rolling_window_type_error :
    ("rolling_window" ∈ qt_start_reader_kwargs
      ∧ "rolling_window" ∉ HX711ReaderThread_params)
    ∧ kwargsBind HX711ReaderThread_params qt_start_reader_kwargs = false
    ∧ (∀ initOk : Bool,
        qt_start_reader false initOk
          = if initOk then StartReaderResult.typeErrorRaised
            else StartReaderResult.initFailed)
    ∧ ∀ initOk : Bool,
        qt_start_reader false initOk ≠ StartReaderResult.readerStarted := by
  refine ⟨by decide, by decide, ?_, ?_⟩ <;> intro b <;> cases b <;> decide

/-- Claim C2 counterexample: `HX711.tare` overwrites `OFFSET` with the fresh
average and leaves `TARE_OFFSET` untouched, and the Tk tare handler stores
the signed difference without taking the absolute value. -/
theorem c2_counterexample_tare_entry_points :
    ¬ ((tare ⟨0, 1, 0⟩ 100).TARE_OFFSET = |(100 : ℚ) - 0|
        ∧ (tare ⟨0, 1, 0⟩ 100).OFFSET = 0)
    ∧ (tk_do_tare ⟨50, 1, 0⟩ 20).TARE_OFFSET ≠ |(20 : ℚ) - 50| := by
  constructor
  · intro h
    have := h.1
    norm_num [tare] at this
  · norm_num [tk_do_tare]

/-- Claim C2 (amended): only the Qt tare slot stores `|avg − offset|` as the
tare offset; the Tk handler stores the signed difference `avg − offset`; both
leave `scale` and `offset` unchanged.  `HX711.tare` instead overwrites
`offset` with the fresh average, leaving the tare offset and scale alone. -/
theorem c2_tare_effects :
    ∀ (s : HXCal) (avg : ℚ),
      ((qt_tare s avg).TARE_OFFSET = |avg - s.OFFSET|
        ∧ (qt_tare s avg).OFFSET = s.OFFSET ∧ (qt_tare s avg).SCALE = s.SCALE)
      ∧ ((tk_do_tare s avg).TARE_OFFSET = avg - s.OFFSET
        ∧ (tk_do_tare s avg).OFFSET = s.OFFSET ∧ (tk_do_tare s avg).SCALE = s.SCALE)
      ∧ ((tare s avg).OFFSET = avg
        ∧ (tare s avg).TARE_OFFSET = s.TARE_OFFSET ∧ (tare s avg).SCALE = s.SCALE) :=
  fun _ _ => ⟨⟨rfl, rfl, rfl⟩, ⟨rfl, rfl, rfl⟩, ⟨rfl, rfl, rfl⟩⟩

/-- Claim C1 counterexample: `HX711.get_grams` divides by the raw `SCALE`
with no epsilon guard, so with a negative scale it disagrees with the
spec formula `(|r − o| − |t|) / max(s, ε)`. -/
theorem c1_counterexample_get_grams_epsilon :
    get_grams ⟨200, -10, 0⟩ 1000
      ≠ (|(1000 : ℚ) - 200| - |(0 : ℚ)|) / max (-10 : ℚ) (1 / 1000000000) := by
  norm_num [get_grams, max_def]

/-- Claim C1 (amended): the sampling-loop tick computes exactly
`(|r − o| − |t|) / max(s, 1e-9)`; `HX711.get_grams` computes
`(|r − o| − |t|) / s` with no epsilon guard, agreeing with the tick formula
whenever `s ≥ 1e-9`; with offset 200, tare 0, scale 10, raw 1000 both paths
give exactly 80. -/
theorem c1_grams_formula_paths :
    (∀ (hx : HXCal) (r : ℚ),
        (1 / 1000000000 : ℚ) ≤ hx.SCALE → get_grams hx r = tickGrams hx r)
    ∧ (∀ (hx : HXCal) (r : ℚ),
        tickGrams hx r
          = (|r - hx.OFFSET| - |hx.TARE_OFFSET|) / max hx.SCALE (1 / 1000000000))
    ∧ get_grams ⟨200, 10, 0⟩ 1000 = 80
    ∧ tickGrams ⟨200, 10, 0⟩ 1000 = 80 := by
  refine ⟨?_, fun hx r => rfl, ?_, ?_⟩
  · intro hx r h
    unfold get_grams tickGrams
    rw [max_eq_left h]
  · norm_num [get_grams]
  · norm_num [tickGrams, max_def]

/-- Claim C1 witness: concrete instance discharging the hypothesis. -/
theorem c1_witness :
    (1 / 1000000000 : ℚ) ≤ (HXCal.mk 200 10 0).SCALE
    ∧ get_grams ⟨200, 10, 0⟩ 1000 = tickGrams ⟨200, 10, 0⟩ 1000 :=
  ⟨by norm_num, c1_grams_formula_paths.1 ⟨200, 10, 0⟩ 1000 (by norm_num)⟩

/-- Claim C6: a calibration request with known weight `w ≤ 0` is rejected
before any hardware access in both the Tk flow and the Qt slot: no device
handle is created, no read is performed, and the persisted calibration
state is returned unchanged. -/
theorem c6_calibration_validation :
    (∀ (w : ℚ) (cfg : PersistedCal) (env : CalEnv),
        w ≤ 0 → tk_calibrate_flow w cfg env = (cfg, [], CalOutcome.invalidWeight))
    ∧ ∀ (ov : Option ℚ) (ckw : ℚ) (cfg : PersistedCal) (demo : Bool) (env : CalEnv),
        (match ov with | some w => w | none => ckw) ≤ 0 →
        qt_calibrate_internal ov ckw cfg demo env
          = (cfg, [], CalOutcome.invalidWeight) := by
  constructor
  · intro w cfg env hw
    simp [tk_calibrate_flow, hw]
  · intro ov ckw cfg demo env hw
    simp only [qt_calibrate_internal]
    rw [if_pos hw]

/-- Claim C6 witness: concrete instances discharging the hypotheses. -/
theorem c6_witness :
    ((0 : ℚ) ≤ 0
      ∧ tk_calibrate_flow 0 ⟨1, 0, 500, none, none, none, none⟩
          ⟨false, true, 0, 0, true, 0, 0, none⟩
          = (⟨1, 0, 500, none, none, none, none⟩, [], CalOutcome.invalidWeight))
    ∧ ((match (some (-5 : ℚ) : Option ℚ) with | some w => w | none => (3 : ℚ)) ≤ 0
      ∧ qt_calibrate_internal (some (-5)) 3 ⟨1, 0, 500, none, none, none, none⟩ false
          ⟨false, true, 0, 0, true, 0, 0, none⟩
          = (⟨1, 0, 500, none, none, none, none⟩, [], CalOutcome.invalidWeight)) :=
  ⟨⟨le_refl 0,
    c6_calibration_validation.1 0 ⟨1, 0, 500, none, none, none, none⟩
      ⟨false, true, 0, 0, true, 0, 0, none⟩ (le_refl 0)⟩,
   ⟨by norm_num,
    c6_calibration_validation.2 (some (-5)) 3 ⟨1, 0, 500, none, none, none, none⟩ false
      ⟨false, true, 0, 0, true, 0, 0, none⟩ (by norm_num)⟩⟩

/-- Claim C7 counterexample: with `calibration_time = 0` (a present, falsy
timestamp) and `now` eight days later, `age_days` exceeds 7 but the evaluator
skips the staleness computation (`if cal_time else None`) and returns
`good`, not `warn` as the claim requires. -/
theorem c7_counterexample_zero_cal_time :
    tk_eval_calibration_status 691200 (some 0) (some 1) (some 2) = CalVerdict.good
    ∧ (7 : ℚ) < ((691200 : ℚ) - 0) / 86400 := by
  constructor
  · rfl
  · norm_num

/-- Claim C7 (amended): both evaluators agree; the verdict is `bad` exactly
when one of `calibration_time`, `scale`, `offset` is absent; otherwise it is
`warn` exactly when `calibration_time ≠ 0` and `age_days > 7` strictly (the
falsy timestamp 0 skips the staleness check, and `age_days = 7.0` exactly
yields `good`). -/
theorem c7_eval_cal_status :
    (∀ (now : ℚ) (ct sc off : Option ℚ),
        tk_eval_calibration_status now ct sc off = qt_eval_cal_status now ct sc off)
    ∧ (∀ (now : ℚ) (sc off : Option ℚ),
        tk_eval_calibration_status now none sc off = CalVerdict.bad)
    ∧ (∀ (now : ℚ) (ct off : Option ℚ),
        tk_eval_calibration_status now ct none off = CalVerdict.bad)
    ∧ (∀ (now : ℚ) (ct sc : Option ℚ),
        tk_eval_calibration_status now ct sc none = CalVerdict.bad)
    ∧ (∀ now ct sc off : ℚ,
        tk_eval_calibration_status now (some ct) (some sc) (some off) ≠ CalVerdict.bad
        ∧ (tk_eval_calibration_status now (some ct) (some sc) (some off) = CalVerdict.warn
            ↔ ct ≠ 0 ∧ 7 < (now - ct) / 86400))
    ∧ tk_eval_calibration_status (1 + 7 * 86400) (some 1) (some 1) (some 1) = CalVerdict.good
    ∧ tk_eval_calibration_status (1 + 7 * 86400 + 9) (some 1) (some 1) (some 1)
        = CalVerdict.warn := by
  have hval : ∀ now ct sc off : ℚ,
      tk_eval_calibration_status now (some ct) (some sc) (some off)
        = if ct ≠ 0 ∧ ((now - ct) / 86400 ≠ 0 ∧ 7 < (now - ct) / 86400) then
            CalVerdict.warn
          else CalVerdict.good := by
    intro now ct sc off
    by_cases hct : ct = 0
    · simp [tk_eval_calibration_status, hct]
    · by_cases hcond : ((now - ct) / 86400 ≠ 0 ∧ 7 < (now - ct) / 86400) <;>
        simp [tk_eval_calibration_status, hct, hcond]
  refine ⟨?_, ?_, ?_, ?_, ?_, ?_, ?_⟩
  · intro now ct sc off
    rcases ct with _ | ct <;> rcases sc with _ | sc <;> rcases off with _ | off <;>
      try rfl
    by_cases hct : ct = 0
    · simp [tk_eval_calibration_status, qt_eval_cal_status, hct]
    · by_cases hcond : ((now - ct) / 86400 ≠ 0 ∧ 7 < (now - ct) / 86400) <;>
        simp [tk_eval_calibration_status, qt_eval_cal_status, hct, hcond]
  · intro now sc off; rfl
  · intro now ct off; cases ct <;> rfl
  · intro now ct sc; cases ct <;> cases sc <;> rfl
  · intro now ct sc off
    rw [hval]
    constructor
    · split_ifs <;> simp
    · constructor
      · intro hw
        by_contra hcon
        rw [if_neg] at hw
        · exact CalVerdict.noConfusion hw
        · intro hc
          exact hcon ⟨hc.1, hc.2.2⟩
      · intro hc
        rw [if_pos ⟨hc.1, fun h0 => by rw [h0] at hc; exact absurd hc.2 (by norm_num), hc.2⟩]
  · rw [hval]
    norm_num
  · rw [hval]
    norm_num

theorem runLoop_append (hx : HXCal) (ts1 ts2 : List TickOutcome) : ∀ buf : List ℚ,
    runLoop hx buf (ts1 ++ ts2)
      = runLoop hx buf ts1 ++ runLoop hx (bufAfter hx buf ts1) ts2 := by
  induction ts1 with
  | nil => intro buf; simp [runLoop, bufAfter]
  | cons t rest ih =>
    intro buf
    simp only [List.cons_append, runLoop, bufAfter, List.append_eq]
    rw [ih, List.append_assoc]

/-- Claim C10: whenever a tick raises, the loop invokes the error callback
with that exception, sleeps one interval, and goes on to process every
remaining tick of the schedule — an error never terminates the loop while
stop has not been requested. -/
theorem c10_error_nonfatal :
    ∀ (hx : HXCal) (buf : List ℚ) (pre : List TickOutcome) (e : ℕ)
      (post : List TickOutcome),
      runLoop hx buf (pre ++ TickOutcome.err e :: post)
        = runLoop hx buf pre
          ++ Event.errorCb e :: Event.sleep :: runLoop hx (bufAfter hx buf pre) post := by
  intro hx buf pre e post
  rw [runLoop_append]
  simp [runLoop, runTick]

theorem dequeAppend3_shape (buf : List ℚ) (g : ℚ) :
    ∃ l : List ℚ, dequeAppend3 buf g = l ++ [g] ∧ l.length ≤ 2 := by
  refine ⟨buf.drop (buf.length + 1 - 3), ?_, ?_⟩
  · unfold dequeAppend3
    simp only [List.length_append, List.length_singleton]
    rw [List.drop_append_of_le_length (by omega)]
  · simp only [List.length_drop]
    omega

theorem dequeAppend3_triple (buf : List ℚ) (g1 g2 g3 : ℚ) :
    dequeAppend3 (dequeAppend3 (dequeAppend3 buf g1) g2) g3 = [g1, g2, g3] := by
  obtain ⟨l, h1, hl⟩ := dequeAppend3_shape buf g1
  rw [h1]
  rcases l with _ | ⟨a, _ | ⟨b, _ | ⟨c, tl⟩⟩⟩
  · rfl
  · rfl
  · rfl
  · simp at hl

theorem smoothedOf_three (g1 g2 g3 : ℚ) :
    smoothedOf [g1, g2, g3] = medianOfThree g1 g2 g3 := by
  by_cases h23 : g2 ≤ g3
  · by_cases h12 : g1 ≤ g2
    · have hs : smoothedOf [g1, g2, g3] = g2 := by
        simp [smoothedOf, List.insertionSort, List.orderedInsert, h23, h12]
      rw [hs]
      simp only [medianOfThree, min_def, max_def]
      split_ifs <;> linarith
    · by_cases h13 : g1 ≤ g3
      · have hs : smoothedOf [g1, g2, g3] = g1 := by
          simp [smoothedOf, List.insertionSort, List.orderedInsert, h23, h12, h13]
        rw [hs]
        simp only [medianOfThree, min_def, max_def]
        split_ifs <;> linarith
      · have hs : smoothedOf [g1, g2, g3] = g3 := by
          simp [smoothedOf, List.insertionSort, List.orderedInsert, h23, h12, h13]
        rw [hs]
        simp only [medianOfThree, min_def, max_def]
        split_ifs <;> linarith
  · by_cases h13 : g1 ≤ g3
    · have h12 : g1 ≤ g2 := by linarith [le_of_not_le h23]
      have hs : smoothedOf [g1, g2, g3] = g3 := by
        simp [smoothedOf, List.insertionSort, List.orderedInsert, h23, h13, h12]
      rw [hs]
      simp only [medianOfThree, min_def, max_def]
      split_ifs <;> linarith
    · by_cases h12 : g1 ≤ g2
      · have hs : smoothedOf [g1, g2, g3] = g1 := by
          simp [smoothedOf, List.insertionSort, List.orderedInsert, h23, h13, h12]
        rw [hs]
        simp only [medianOfThree, min_def, max_def]
        split_ifs <;> linarith
      · have hs : smoothedOf [g1, g2, g3] = g2 := by
          simp [smoothedOf, List.insertionSort, List.orderedInsert, h23, h13, h12]
        rw [hs]
        simp only [medianOfThree, min_def, max_def]
        split_ifs <;> linarith

/-- Claim C8: once three grams values have been produced, the emitted
smoothed value is the median of the three most recent grams values (for any
prior buffer contents); feeding the grams sequence 10, 50, 12 makes the
third tick emit 12, the median, not the raw 12...50. -/
theorem c8_median_smoothing :
    (∀ (buf : List ℚ) (g1 g2 g3 : ℚ),
        smoothedOf (dequeAppend3 (dequeAppend3 (dequeAppend3 buf g1) g2) g3)
          = medianOfThree g1 g2 g3)
    ∧ runLoop ⟨0, 1, 0⟩ [] [TickOutcome.ok 10, TickOutcome.ok 50, TickOutcome.ok 12]
        = [Event.reading 10 10, Event.sleep, Event.reading 50 50, Event.sleep,
           Event.reading 12 12, Event.sleep] := by
  constructor
  · intro buf g1 g2 g3
    rw [dequeAppend3_triple, smoothedOf_three]
  · have key : ∀ r : ℚ, 0 ≤ r → tickGrams ⟨0, 1, 0⟩ r = r := by
      intro r hr
      simp only [tickGrams]
      rw [max_eq_left (by norm_num : (1 / 1000000000 : ℚ) ≤ (HXCal.mk 0 1 0).SCALE)]
      simp [abs_of_nonneg hr]
    simp only [runLoop, runTick]
    rw [key 10 (by norm_num), key 50 (by norm_num), key 12 (by norm_num)]
    norm_num [dequeAppend3, smoothedOf, pyInt, List.insertionSort,
      List.orderedInsert, List.getD]

theorem bool_bne_false (b : Bool) : (b != false) = b := by cases b <;> rfl

theorem xor_two_pow_of_lt : ∀ (k r : ℕ), r < 2 ^ k → r ^^^ 2 ^ k = r + 2 ^ k := by
  intro k
  induction k with
  | zero =>
    intro r hr
    have h0 : r = 0 := by omega
    subst h0
    decide
  | succ k ih =>
    intro r hr
    have hdecomp := Nat.bit_decide_mod_two_eq_one_shiftRight_one r
    have hshift : r >>> 1 = r / 2 := Nat.shiftRight_one r
    have hpow2 : (2 : ℕ) ^ (k + 1) = 2 * 2 ^ k := by ring
    have hhalf : r >>> 1 < 2 ^ k := by omega
    have hbit : (2 : ℕ) ^ (k + 1) = Nat.bit false (2 ^ k) := by
      rw [Nat.bit_val]
      simp only [Bool.toNat_false, Nat.add_zero]
      exact hpow2
    calc r ^^^ 2 ^ (k + 1)
        = Nat.bit (decide (r % 2 = 1)) (r >>> 1) ^^^ Nat.bit false (2 ^ k) := by
          rw [hdecomp, ← hbit]
      _ = Nat.bit ((decide (r % 2 = 1)) != false) ((r >>> 1) ^^^ 2 ^ k) :=
          Nat.xor_bit _ _ _ _
      _ = Nat.bit (decide (r % 2 = 1)) ((r >>> 1) + 2 ^ k) := by
          rw [bool_bne_false, ih _ hhalf]
      _ = r + 2 ^ (k + 1) := by
          have h1 := Nat.bit_val (decide (r % 2 = 1)) ((r >>> 1) + 2 ^ k)
          have h2 := Nat.bit_val (decide (r % 2 = 1)) (r >>> 1)
          rw [hdecomp] at h2
          omega

theorem xor_8388608_of_lt (r : ℕ) (h : r < 8388608) : r ^^^ 8388608 = r + 8388608 := by
  have h23 : (8388608 : ℕ) = 2 ^ 23 := by norm_num
  rw [h23] at h ⊢
  exact xor_two_pow_of_lt 23 r h

theorem add_8388608_xor (r : ℕ) (h : r < 8388608) : (8388608 + r) ^^^ 8388608 = r := by
  have h1 := xor_8388608_of_lt r h
  rw [Nat.add_comm, ← h1]
  exact Nat.xor_cancel_right _ _

theorem readShiftLoop_foldl_lt (bits : List Bool) : ∀ c : ℕ,
    bits.foldl (fun count b => 2 * count + (if b then 1 else 0)) c
      < (c + 1) * 2 ^ bits.length := by
  induction bits with
  | nil => intro c; simp
  | cons b rest ih =>
    intro c
    simp only [List.foldl_cons, List.length_cons]
    have h1 := ih (2 * c + (if b then 1 else 0))
    have hb : (if b then 1 else 0) ≤ 1 := by split <;> omega
    have h2 : (2 * c + (if b then 1 else 0) + 1) * 2 ^ rest.length
        ≤ (c + 1) * 2 ^ (rest.length + 1) := by
      have hle : 2 * c + (if b then 1 else 0) + 1 ≤ (c + 1) * 2 := by omega
      calc (2 * c + (if b then 1 else 0) + 1) * 2 ^ rest.length
          ≤ ((c + 1) * 2) * 2 ^ rest.length := Nat.mul_le_mul_right _ hle
        _ = (c + 1) * 2 ^ (rest.length + 1) := by ring
    omega

theorem readShiftLoop_lt_two_pow (bits : List Bool) :
    readShiftLoop bits < 2 ^ bits.length := by
  have h := readShiftLoop_foldl_lt bits 0
  simpa [readShiftLoop] using h

theorem readShiftLoop_foldl_init (bits : List Bool) : ∀ c : ℕ,
    bits.foldl (fun count b => 2 * count + (if b then 1 else 0)) c
      = c * 2 ^ bits.length + readShiftLoop bits := by
  induction bits with
  | nil => intro c; simp [readShiftLoop]
  | cons b rest ih =>
    intro c
    simp only [readShiftLoop, List.foldl_cons, List.length_cons]
    have hp : (2 : ℕ) ^ (rest.length + 1) = 2 * 2 ^ rest.length := by ring
    rw [ih (2 * c + (if b then 1 else 0)), ih (2 * 0 + (if b then 1 else 0)), hp]
    ring

theorem readShiftLoop_cons (b : Bool) (rest : List Bool) :
    readShiftLoop (b :: rest)
      = (if b then 1 else 0) * 2 ^ rest.length + readShiftLoop rest := by
  simp only [readShiftLoop, List.foldl_cons]
  rw [readShiftLoop_foldl_init rest (2 * 0 + (if b then 1 else 0))]
  simp only [readShiftLoop]
  ring

theorem readShiftLoop_replicate_false :
    ∀ n : ℕ, readShiftLoop (List.replicate n false) = 0 := by
  intro n
  induction n with
  | zero => rfl
  | succ n ih =>
    rw [List.replicate_succ, readShiftLoop_cons, ih]
    simp

/-- Claim C5 counterexample: for the sample whose sign bit is set and all
other bits clear, `readSample` returns 0 (the XOR merely flips bit 23),
while the two's-complement value of that sample is −8388608; the returned
value is not negative although the sign bit was set. -/
theorem c5_counterexample_sign_bit :
    (readCount (true :: List.replicate 23 false) : ℤ)
      ≠ twosComplement24 (readShiftLoop (true :: List.replicate 23 false))
    ∧ 0 ≤ (readCount (true :: List.replicate 23 false) : ℤ)
    ∧ twosComplement24 (readShiftLoop (true :: List.replicate 23 false)) < 0 := by
  have hS : readShiftLoop (true :: List.replicate 23 false) = 8388608 := by
    rw [readShiftLoop_cons, readShiftLoop_replicate_false]
    simp [List.length_replicate]
  have hrc : readCount (true :: List.replicate 23 false) = 0 := by
    rw [readCount, hS]
    exact Nat.xor_self 8388608
  rw [hrc, hS]
  norm_num [twosComplement24]

/-- Claim C5 (amended): `readSample` returns the assembled 24-bit word XORed
with 0x800000; for every 24-bit input this equals the two's-complement value
of the raw sample plus 2^23 (offset-binary encoding), a value in
[0, 2^24) that is never negative — it is not the two's-complement signed
value itself. -/
theorem c5_read_offset_binary :
    ∀ bits : List Bool, bits.length = 24 →
      readCount bits = readShiftLoop bits ^^^ 0x800000
      ∧ (readCount bits : ℤ) = twosComplement24 (readShiftLoop bits) + 8388608
      ∧ readCount bits < 16777216
      ∧ 0 ≤ (readCount bits : ℤ) := by
  intro bits hlen
  rcases bits with _ | ⟨b, rest⟩
  · simp at hlen
  have hrest : rest.length = 23 := by simpa using hlen
  have hS : readShiftLoop rest < 8388608 := by
    have h := readShiftLoop_lt_two_pow rest
    rw [hrest] at h
    norm_num at h
    exact h
  have hcons := readShiftLoop_cons b rest
  rw [hrest] at hcons
  refine ⟨rfl, ?_, ?_, Int.natCast_nonneg _⟩
  · cases b
    · have hn : readShiftLoop (false :: rest) = readShiftLoop rest := by
        rw [hcons]; norm_num
      have hx : readCount (false :: rest) = readShiftLoop rest + 8388608 := by
        rw [readCount, hn]
        exact xor_8388608_of_lt _ hS
      rw [hx, hn, twosComplement24, if_pos (show readShiftLoop rest < 0x800000 by omega)]
      push_cast
      ring
    · have hn : readShiftLoop (true :: rest) = 8388608 + readShiftLoop rest := by
        rw [hcons]; norm_num [Nat.add_comm]
      have hx : readCount (true :: rest) = readShiftLoop rest := by
        rw [readCount, hn]
        exact add_8388608_xor _ hS
      rw [hx, hn, twosComplement24, if_neg (by norm_num)]
      push_cast
      omega
  · cases b
    · have hn : readShiftLoop (false :: rest) = readShiftLoop rest := by
        rw [hcons]; norm_num
      have hx : readCount (false :: rest) = readShiftLoop rest + 8388608 := by
        rw [readCount, hn]
        exact xor_8388608_of_lt _ hS
      rw [hx]
      omega
    · have hn : readShiftLoop (true :: rest) = 8388608 + readShiftLoop rest := by
        rw [hcons]; norm_num [Nat.add_comm]
      have hx : readCount (true :: rest) = readShiftLoop rest := by
        rw [readCount, hn]
        exact add_8388608_xor _ hS
      rw [hx]
      omega

/-- Claim C5 witness: concrete instance discharging the length hypothesis. -/
theorem c5_witness :
    (true :: List.replicate 23 false).length = 24
    ∧ (readCount (true :: List.replicate 23 false) : ℤ)
        = twosComplement24 (readShiftLoop (true :: List.replicate 23 false)) + 8388608
    ∧ readCount (true :: List.replicate 23 false) < 16777216 := by
  have h := c5_read_offset_binary (true :: List.replicate 23 false) (by simp)
  exact ⟨by simp, h.2.1, h.2.2.1⟩
